import Mathlib

set_option maxHeartbeats 1000000

/-!
Shallow embedding of the backup-suite core (path sanitization, endpoint
parsing, WebDAV listing parsing, and the wave-based download engine) and
proofs about it.  Python strings are modelled as Lean `String`, machine
integers do not occur, and Python exceptions are modelled with `Except`.
-/

/-- Errors raised by the Python runtime on the modelled code paths. -/
inductive PyErr where
  | valueError
  | keyError
  | attributeError
  | assertionError
deriving DecidableEq

deriving instance DecidableEq for Except

/-- Model of Python `pathlib.PurePath` (POSIX flavour): a root marker
(`""` for relative paths, `"/"` for absolute paths, `"//"` for the special
POSIX double-slash root) together with the list of path segments.  A value
produced by the `PurePath` constructor always has the root marker in
`{"", "/", "//"}` and segments that are nonempty, distinct from `"."` and
free of `'/'`; the theorems below do not assume this unless stated. -/
structure PurePath where
  root : String
  segments : List String
deriving DecidableEq

/-- Python `'/'.join(parts)`, as used by `PurePath.__str__`. -/
def joinSegs : List String → String
  | [] => ""
  | [s] => s
  | s :: rest => s ++ "/" ++ joinSegs rest

/-- Model of `str(PurePath)`: `"."` for the empty relative path, otherwise
the root marker followed by the `'/'`-joined segments. -/
def PurePath.str (p : PurePath) : String :=
  if p.root = "" ∧ p.segments = [] then "." else p.root ++ joinSegs p.segments

/-- Splitting a character list at every `'/'`, modelling Python
`str.split('/')` (adjacent separators yield empty pieces). -/
def splitSlashes : List Char → List (List Char)
  | [] => [[]]
  | c :: rest =>
    match splitSlashes rest with
    | s :: ss => if c = '/' then [] :: s :: ss else (c :: s) :: ss
    | [] => if c = '/' then [[], []] else [[c]]

/-- Model of the `PurePosixPath` constructor applied to a string: a path
starting with exactly two slashes keeps the `"//"` root, any other leading
run of slashes gives root `"/"`, and empty and `"."` parts are dropped. -/
def PurePath.ofString (s : String) : PurePath :=
  let slashes := (s.data.takeWhile (fun c => c = '/')).length
  let root := if slashes = 0 then "" else if slashes = 2 then "//" else "/"
  let segs := ((splitSlashes s.data).map String.mk).filter
    (fun seg => decide (seg ≠ "" ∧ seg ≠ "."))
  ⟨root, segs⟩

/-- Model of `PurePath.relative_to(other)`: succeeds when `other`'s parts
are a prefix of `self`'s parts (with equal roots), returning the relative
remainder, and raises `ValueError` otherwise. -/
def PurePath.relativeTo (p q : PurePath) : Except PyErr PurePath :=
  if p.root = q.root ∧ q.segments <+: p.segments then
    .ok ⟨"", p.segments.drop q.segments.length⟩
  else .error .valueError

/-- Model of `PurePath.is_relative_to(other)`, which Python implements by
calling `relative_to` and catching `ValueError`. -/
def PurePath.isRelTo (p q : PurePath) : Bool :=
  match p.relativeTo q with
  | .ok _ => true
  | .error _ => false

/-- Model of the `/` operator on `PurePath`: joining with an absolute path
replaces the left operand. -/
def PurePath.join (p q : PurePath) : PurePath :=
  if q.root = "" then ⟨p.root, p.segments ++ q.segments⟩ else q

/-- The character class of `src/clean_path.py` and
`BackupService._compute_local_res_paths`: `r'[\<\>\:\"\/\|\?\*]+'`. -/
def INVALID_WIN_CHARS : List Char := ['<', '>', ':', '\"', '/', '|', '?', '*']

/-- Model of `re.sub(INVALID_WIN_CHARS, '', s)`: replacing every maximal
run of characters from the class by the empty string deletes exactly the
characters of the class. -/
def reSubInvalid (s : String) : String :=
  String.mk (s.data.filter (fun c => decide (c ∉ INVALID_WIN_CHARS)))

/-- Model of `clean_path` from `src/clean_path.py`:
`PurePath(re.sub(INVALID_WIN_CHARS, '', str(path)))`. -/
def clean_path (p : PurePath) : PurePath :=
  PurePath.ofString (reSubInvalid p.str)

/-- Model of `BackupService._compute_local_res_paths`, which fills the
`remote_res_to_local_res` dict by applying the same
`re.sub(INVALID_WIN_CHARS, '', str(remote_res_path))` inline. -/
def computeLocalResPaths (rs : List PurePath) : List (PurePath × PurePath) :=
  rs.map (fun r => (r, PurePath.ofString (reSubInvalid r.str)))

/-- Lookup in the `remote_res_to_local_res` dict modelled as an association
list where a later binding for the same key wins, as in a Python dict. -/
def dictLookup (m : List (PurePath × PurePath)) (k : PurePath) : Option PurePath :=
  (m.reverse.find? (fun e => decide (e.1 = k))).map (fun e => e.2)

/-- The local file path that `WebDavService.download_resource` opens for
writing: `self.local_root_path / self.remote_res_to_local_res[path]`
(`none` models the `KeyError` on a missing mapping). -/
def downloadTargetPath (localRoot : PurePath) (m : List (PurePath × PurePath))
    (remote : PurePath) : Option PurePath :=
  (dictLookup m remote).map (fun l => localRoot.join l)

/-!  The transport layer and the download engine
(`BackupService.download_resources` / `check_futures` together with
`WebDavService.send_request` / `download_resource`). -/

/-- What the network does on one request: `requests` raises a `Timeout`,
raises some other `RequestException` (connection reset, DNS failure, TLS
failure), or delivers an HTTP response with a status code. -/
inductive TransportResult where
  | timeout
  | transportError
  | response (status : Nat)
deriving DecidableEq

/-- The exceptions that can escape `WebDavService.send_request`:
`ResponseNotOkError` / `ServiceUnavailableError` (subclasses of
`requests.HTTPError`, carrying the response's status code), a re-raised
`requests.Timeout`, or a re-raised other `requests.RequestException`. -/
inductive FetchExc where
  | httpError (status : Nat)
  | timeoutExc
  | requestExc
deriving DecidableEq

/-- The classification `BackupService.check_futures` gives one completed
future: append to `retry_resources`, append to `failed_resources`, or
neither (success). -/
inductive Outcome where
  | retry
  | failed
  | success
deriving DecidableEq

/-- `BackupService.RETRY_CODES`: 429, 502, 503, 504. -/
def RETRY_CODES : List Nat := [429, 502, 503, 504]

/-- Model of `WebDavService.send_request`: transport exceptions are
re-raised unchanged; a 503 raises `ServiceUnavailableError`; for a
`PROPFIND` any status other than 207, and for any other method any status
other than 200, raises `ResponseNotOkError`; otherwise the response (here
its status code) is returned. -/
def send_request (method : String) (t : TransportResult) : Except FetchExc Nat :=
  match t with
  | .timeout => .error .timeoutExc
  | .transportError => .error .requestExc
  | .response s =>
    if s = 503 then .error (.httpError 503)
    else if method = "PROPFIND" then
      if s ≠ 207 then .error (.httpError s) else .ok s
    else
      if s ≠ 200 then .error (.httpError s) else .ok s

/-- The fetch outcome `download_resource` would obtain from its
`send_request('GET', url)` call for a given transport behaviour — the
completed-attempt result that `check_futures` classifies.  In the current
source that call site is unreachable (`download_resource` raises
`AttributeError` two lines earlier, see `download_resource_run`); the
status checks and the classification below are nevertheless the live code
of `send_request` and `check_futures`. -/
def download_resource_result (t : TransportResult) : Except FetchExc Nat :=
  send_request "GET" t

/-- The classification performed by the `try/except` chain in
`BackupService.check_futures` on one future's result: an `HTTPError` whose
status is in `RETRY_CODES` retries and any other `HTTPError` fails; a
`Timeout` retries and any other `RequestException` fails; no exception is
a success. -/
def classify_result (e : Except FetchExc Nat) : Outcome :=
  match e with
  | .error (.httpError s) => if s ∈ RETRY_CODES then .retry else .failed
  | .error .timeoutExc => .retry
  | .error .requestExc => .failed
  | .ok _ => .success

/-- A Python exception as `future.result()` re-raises it inside
`check_futures`: either one of the `requests` exceptions that the
`try/except` chain there handles, or any other exception — which that
chain does not catch. -/
inductive FutureExc where
  | reqExc (e : FetchExc)
  | otherExc (e : PyErr)
deriving DecidableEq

/-- Model of `WebDavService.download_resource` as submitted to the pool:
it reads `self.remote_res_to_local_res[remote_res_path]` (`KeyError` when
the mapping is absent), forms the local target path, and then calls
`self.conn_info.remote_res_path_to_url(remote_res_path)` — a method that
does not exist on `ConnInfo`, which defines only `resource_path_to_url`
and `full_path_to_url` (the older single-file iteration in `src/main.py`
calls `resource_path_to_url` here) — so it raises `AttributeError`
unconditionally, before any request is made: the `send_request('GET', ...)`
call and the streaming file write below that line are unreachable. -/
def download_resource_run (m : List (PurePath × PurePath)) (remote : PurePath) :
    Except FutureExc Unit :=
  match dictLookup m remote with
  | none => .error (.otherExc .keyError)
  | some _ => .error (.otherExc .attributeError)

/-- An oracle giving, for each resource and each attempt number (the
engine's `try_num`, starting at 1), what that attempt's `future.result()`
does: return, re-raise a `requests` exception, or re-raise some other
exception.  The real program's futures are described by
`download_resource_run`; oracles producing transport exceptions describe
the fetch path as it would behave were the `remote_res_path_to_url` line
reachable. -/
abbrev FOracle := PurePath → Nat → Except FutureExc Unit

/-- What the `try/except` chain of `check_futures` makes of one future's
result: a classification (by the rules of `classify_result`) for the
`requests` exceptions it catches, or the uncaught exception itself. -/
def futureOutcome (res : Except FutureExc Unit) : Except PyErr Outcome :=
  match res with
  | .ok _ => .ok .success
  | .error (.reqExc e) => .ok (classify_result (.error e))
  | .error (.otherExc e) => .error e

/-- Model of `BackupService.check_futures`: walks the futures of one wave
and returns `(retry_resources, failed_resources)`; a future result that
is neither an `HTTPError` nor another `RequestException` is not caught by
the `try/except` chain and propagates, aborting the walk (the lists built
so far are discarded with the raised exception).  Completion order is
modelled as submission order; the membership, count and propagation facts
proved below do not depend on it. -/
def check_futures (outcome : PurePath → Except FutureExc Unit) :
    List PurePath → Except PyErr (List PurePath × List PurePath)
  | [] => .ok ([], [])
  | r :: rest =>
    match futureOutcome (outcome r) with
    | .error e => .error e
    | .ok oc =>
      match check_futures outcome rest with
      | .error e => .error e
      | .ok pr =>
        .ok (match oc with
          | .retry => (r :: pr.1, pr.2)
          | .failed => (pr.1, r :: pr.2)
          | .success => pr)

/-- The `while` condition of `BackupService.download_resources`:
`len(try_resources) > 0 and (self.MAX_TRIES is None or try_num < self.MAX_TRIES)`. -/
def loopGuard (maxTries : Option Nat) (tryNum : Nat) (tryRes : List PurePath) : Bool :=
  !tryRes.isEmpty && (match maxTries with | none => true | some n => decide (tryNum < n))

/-- The wave loop of `BackupService.download_resources`.  Each iteration
submits every resource of `tryRes` — the `executor.submit` calls are
appended to the trace `subs` as (resource, try_num) pairs and happen
regardless of how the wave then ends — and checks the wave with
`check_futures`: an exception the chain does not catch propagates out of
the loop (second component `some (.error e)`); otherwise the loop
continues with the retry list.  On normal exit the resources still
pending are appended to the failed list (`some (.ok failed)`).  The
Python loop has no structural bound, so the embedding carries explicit
`fuel`; a second component of `none` means the loop has not reached an
exit within `fuel` iterations.  The submission trace is returned in every
case. -/
def downloadLoop (foracle : FOracle) (maxTries : Option Nat) :
    Nat → Nat → List PurePath → List PurePath → List (PurePath × Nat) →
    List (PurePath × Nat) × Option (Except PyErr (List PurePath))
  | 0, tryNum, tryRes, failed, subs =>
    if loopGuard maxTries tryNum tryRes then (subs, none)
    else (subs, some (.ok (failed ++ tryRes)))
  | fuel + 1, tryNum, tryRes, failed, subs =>
    if loopGuard maxTries tryNum tryRes then
      match check_futures (fun r => foracle r (tryNum + 1)) tryRes with
      | .error e => (subs ++ tryRes.map (fun r => (r, tryNum + 1)), some (.error e))
      | .ok pair =>
        downloadLoop foracle maxTries fuel (tryNum + 1) pair.1 (failed ++ pair.2)
          (subs ++ tryRes.map (fun r => (r, tryNum + 1)))
    else (subs, some (.ok (failed ++ tryRes)))

/-- Model of `BackupService.download_resources`: runs the wave loop from
`try_num = 0` on a copy of the input list.  The first component is the
trace of `executor.submit` calls; the second is the call's outcome —
`.ok` with the final `failed_resources` list on normal return, `.error`
when an exception escapes the call. -/
def download_resources (foracle : FOracle) (maxTries : Option Nat) (fuel : Nat)
    (rs : List PurePath) :
    List (PurePath × Nat) × Option (Except PyErr (List PurePath)) :=
  downloadLoop foracle maxTries fuel 0 rs [] []

/-- `BackupService.MAX_TRIES`, the base-class default: `None`. -/
def BackupService_MAX_TRIES : Option Nat := none

/-- `WebDavService.MAX_TRIES`: 5. -/
def WebDavService_MAX_TRIES : Option Nat := some 5

/-- Occurrence count of a resource in a list of resources. -/
def countOcc (p : PurePath) (l : List PurePath) : Nat :=
  l.countP (fun x => decide (x = p))

/-- Number of times a resource appears in the submission trace, i.e. how
often `executor.submit(self.download_resource, resource)` ran for it. -/
def subsCount (p : PurePath) (sb : List (PurePath × Nat)) : Nat :=
  sb.countP (fun x => decide (x.1 = p))

/-- Number of wave-1 submissions of a resource. -/
def wave1Count (p : PurePath) (sb : List (PurePath × Nat)) : Nat :=
  sb.countP (fun x => decide (x = (p, 1)))

/-!  The endpoint address model (`src/conn_info.py`) and the pieces of
`urllib.parse` it relies on. -/

/-- Characters Python's `urlsplit` accepts inside a scheme after the
leading letter. -/
def isSchemeChar (c : Char) : Bool :=
  c.isAlphanum || c = '+' || c = '-' || c = '.'

/-- Scheme extraction of `urllib.parse.urlsplit`: a nonempty prefix of
scheme characters starting with a letter, followed by `':'`, is split off
and lowercased; otherwise the scheme is empty and the input unchanged. -/
def splitScheme (l : List Char) : String × List Char :=
  let pre := l.takeWhile (fun c => c ≠ ':')
  if pre.length < l.length ∧ pre ≠ [] ∧ pre.headI.isAlpha ∧ pre.all isSchemeChar then
    (String.mk (pre.map Char.toLower), l.drop (pre.length + 1))
  else ("", l)

/-- The schemes for which `urlparse` splits `';'`-parameters off the last
path segment (`urllib.parse.uses_params`). -/
def usesParams : List String :=
  ["", "ftp", "hdl", "prospero", "http", "imap", "https", "shttp", "rtsp",
    "rtspu", "sip", "sips", "mms", "sftp", "tel"]

/-- `urllib.parse._splitparams` on the path part: cut at the first `';'`
occurring after the last `'/'` (or anywhere when there is no `'/'`);
called only when a `';'` is present. -/
def splitParams (l : List Char) : List Char :=
  if l.contains '/' then
    let afterSlash := (l.reverse.takeWhile (fun c => c ≠ '/')).reverse
    if afterSlash.contains ';' then
      l.take (l.length - afterSlash.length + (afterSlash.takeWhile (fun c => c ≠ ';')).length)
    else l
  else l.takeWhile (fun c => c ≠ ';')

/-- The `path` component of `urllib.parse.urlparse`: strip the fragment,
split off the scheme, skip the `//netloc` part if present, strip the
query, and for the parameter-using schemes split `';'`-parameters off the
last segment. -/
def urlparsePath (s : String) : String :=
  let l := s.data.takeWhile (fun c => c ≠ '#')
  let sc := splitScheme l
  let l := sc.2
  let l := match l with
    | '/' :: '/' :: rest => rest.dropWhile (fun c => decide (c ≠ '/' ∧ c ≠ '?'))
    | _ => l
  let l := l.takeWhile (fun c => c ≠ '?')
  let l := if sc.1 ∈ usesParams ∧ l.contains ';' then splitParams l else l
  String.mk l

/-- Model of `ConnInfo.has_double_slash`:
`re.match(r'//+', string) != None`.  `re.match` anchors at the start of
the string, so this holds exactly when the string begins with two
slashes. -/
def has_double_slash (s : String) : Bool :=
  match s.data with
  | c1 :: c2 :: _ => decide (c1 = '/') && decide (c2 = '/')
  | _ => false

/-- Whether a string contains two adjacent slashes anywhere (the property
the specification attributes to `has_double_slash`). -/
def containsDoubleSlash : List Char → Bool
  | '/' :: '/' :: _ => true
  | _ :: rest => containsDoubleSlash rest
  | [] => false

/-- Model of `ConnInfo.__init__` restricted to its path handling: parse
the URL's path component, make the root path relative by stripping a
leading `'/'`, then raise `ValueError('URL contains double slash')` when
`has_double_slash` holds of the raw path component.  The omitted parts of
the constructor (hostname/port fields, URL rebuild, non-standard-port
warnings) only store data or print diagnostics and raise nothing. -/
def connInfoInit (rootUrl : String) : Except PyErr PurePath :=
  let path := urlparsePath rootUrl
  let rootPath := PurePath.ofString path
  let rootPath :=
    if rootPath.isRelTo (PurePath.ofString "/") then
      match rootPath.relativeTo (PurePath.ofString "/") with
      | .ok r => r
      | .error _ => rootPath
    else rootPath
  if has_double_slash path then .error .valueError else .ok rootPath

/-!  The resource lister (`WebDavService.parse_resource_list`) and the
`lxml.etree` / `urllib.parse.unquote` behaviour it relies on. -/

/-- Hexadecimal digit value, as used by percent-decoding. -/
def hexVal (c : Char) : Option Nat :=
  if '0' ≤ c ∧ c ≤ '9' then some (c.toNat - '0'.toNat)
  else if 'a' ≤ c ∧ c ≤ 'f' then some (c.toNat - 'a'.toNat + 10)
  else if 'A' ≤ c ∧ c ≤ 'F' then some (c.toNat - 'A'.toNat + 10)
  else none

/-- Percent-decoding at the character level, modelling
`urllib.parse.unquote`: a `'%'` followed by two hex digits becomes the
character with that code, anything else is kept (multi-byte UTF-8
sequences are outside this model; the listings proved about below contain
none). -/
def unquoteChars : List Char → List Char
  | '%' :: a :: b :: rest =>
    match hexVal a, hexVal b with
    | some x, some y => Char.ofNat (16 * x + y) :: unquoteChars rest
    | _, _ => '%' :: unquoteChars (a :: b :: rest)
  | c :: rest => c :: unquoteChars rest
  | [] => []

/-- Model of `urllib.parse.unquote` on strings. -/
def unquote (s : String) : String :=
  String.mk (unquoteChars s.data)

/-- An XML element as `lxml.etree` presents it: a tag in Clark notation
(namespace in braces written out as part of the string), the element's
text, and its child elements. -/
inductive XmlNode where
  | elem (tag : String) (text : Option String) (children : List XmlNode)

/-- The tag of an element. -/
def XmlNode.tag : XmlNode → String
  | .elem t _ _ => t

/-- The text of an element (`None` when the element is empty). -/
def XmlNode.text : XmlNode → Option String
  | .elem _ t _ => t

mutual

/-- All proper descendants of an element in document order, as traversed
by the ElementPath pattern `.//`. -/
def XmlNode.descendants : XmlNode → List XmlNode
  | .elem _ _ cs => descList cs

/-- Descendant traversal over a list of sibling elements. -/
def descList : List XmlNode → List XmlNode
  | [] => []
  | c :: rest => c :: XmlNode.descendants c ++ descList rest

end

/-- Model of `element.findall(".//" ++ tag)`: every proper descendant with
the given tag, in document order. -/
def XmlNode.findallDesc (x : XmlNode) (t : String) : List XmlNode :=
  x.descendants.filter (fun c => decide (c.tag = t))

/-- Model of `element.find(".//" ++ tag)`: the first such descendant, or
`None`. -/
def XmlNode.findDesc (x : XmlNode) (t : String) : Option XmlNode :=
  (x.findallDesc t).head?

/-- The byte string handed to `etree.fromstring`, abstracted to what the
parser makes of it: either ill-formed XML (`XMLSyntaxError`) or a parsed
element tree. -/
inductive Content where
  | malformed
  | tree (root : XmlNode)

/-- Whether a `{DAV:}response` element is flagged as a directory:
`len(response_elem.findall(".//{DAV:}collection")) > 0`. -/
def isDirElem (resp : XmlNode) : Bool :=
  decide (0 < (resp.findallDesc "{DAV:}collection").length)

/-- The first `{DAV:}href` descendant of a `{DAV:}response` element. -/
def hrefElem (resp : XmlNode) : Option XmlNode :=
  resp.findDesc "{DAV:}href"

/-- The string `unquote(urlparse(href_elem.text).path)` for one href
element: for an empty element `text` is `None`, and on Python ≥ 3.10
(which the source's `str | bytes` annotations require) `urlparse(None)`
takes the bytes branch and yields a `path` of `b''`, with `unquote(b'')`
returning `''`; for a string text the path component is extracted and
percent-decoded. -/
def hrefPathStr : Option String → String
  | none => ""
  | some t => unquote (urlparsePath t)

/-- The path computation `parse_resource_list` applies to one href
element's text: `PurePath(unquote(urlparse(text).path))`, made relative
when it is relative to `'/'`, then `relative_to(root_prefix)` (which
raises `ValueError` when the path is not under the prefix). -/
def processHref (t : Option String) (rootPref : PurePath) : Except PyErr PurePath :=
  let p := PurePath.ofString (hrefPathStr t)
  let p :=
    if p.isRelTo (PurePath.ofString "/") then
      match p.relativeTo (PurePath.ofString "/") with
      | .ok r => r
      | .error _ => p
    else p
  p.relativeTo rootPref

/-- The body of `parse_resource_list`'s loop for one `{DAV:}response`
element: directories are skipped (`.ok none`); a response with no
`{DAV:}href` descendant raises `AttributeError` (`None.text`); otherwise
the href's text — possibly `None` for an empty element — is processed. -/
def processResponse (rootPref : PurePath) (resp : XmlNode) :
    Except PyErr (Option PurePath) :=
  if isDirElem resp then .ok none
  else
    match hrefElem resp with
    | none => .error .attributeError
    | some h => (processHref h.text rootPref).map some

/-- The loop of `parse_resource_list` over the `{DAV:}response` elements:
results are appended in document order and the first raised error aborts
the whole call. -/
def parseRespLoop (rootPref : PurePath) : List XmlNode → Except PyErr (List PurePath)
  | [] => .ok []
  | resp :: rest =>
    match processResponse rootPref resp with
    | .error e => .error e
    | .ok none => parseRespLoop rootPref rest
    | .ok (some p) =>
      match parseRespLoop rootPref rest with
      | .error e => .error e
      | .ok l => .ok (p :: l)

/-- Model of `WebDavService.parse_resource_list`: assert the root prefix
is relative, return `[]` for unparsable content (only `XMLSyntaxError` is
caught), and otherwise process every `{DAV:}response` descendant of the
parsed tree. -/
def parse_resource_list (content : Content) (rootPref : PurePath) :
    Except PyErr (List PurePath) :=
  if rootPref.isRelTo (PurePath.ofString "/") then .error .assertionError
  else
    match content with
    | .malformed => .ok []
    | .tree root => parseRespLoop rootPref (root.findallDesc "{DAV:}response")

/-- A parsed multi-status listing that names the same remote file twice
(as the XML tree `lxml` produces for it). -/
def dupListing : Content :=
  .tree (.elem "{DAV:}multistatus" none
    [.elem "{DAV:}response" none [.elem "{DAV:}href" (some "/a.txt") []],
     .elem "{DAV:}response" none [.elem "{DAV:}href" (some "/a.txt") []]])

/-- A well-formed multi-status listing whose single non-directory response
element carries no `{DAV:}href` child. -/
def noHrefListing : Content :=
  .tree (.elem "{DAV:}multistatus" none
    [.elem "{DAV:}response" none [.elem "{DAV:}propstat" none []]])

/-- A well-formed multi-status listing whose single non-directory
response carries an empty `{DAV:}href` element (its `text` is `None`). -/
def emptyHrefListing : Content :=
  .tree (.elem "{DAV:}multistatus" none
    [.elem "{DAV:}response" none [.elem "{DAV:}href" none []]])

/-!  Helper lemmas about the path sanitizer. -/

theorem joinSegs_single (s : String) : joinSegs [s] = s := rfl

theorem empty_append_str (s : String) : "" ++ s = s := by
  cases s
  rfl

theorem reSub_mem (s : String) :
    ∀ c ∈ (reSubInvalid s).data, ¬ c ∈ INVALID_WIN_CHARS := by
  intro c hc
  simp only [reSubInvalid, List.mem_filter] at hc
  exact of_decide_eq_true hc.2

theorem reSub_noChange {s : String} (h : ∀ c ∈ s.data, ¬ c ∈ INVALID_WIN_CHARS) :
    reSubInvalid s = s := by
  unfold reSubInvalid
  rw [List.filter_eq_self.mpr (fun a ha => decide_eq_true (h a ha))]

theorem splitSlashes_noSlash {l : List Char} (h : ∀ c ∈ l, c ≠ '/') :
    splitSlashes l = [l] := by
  induction l with
  | nil => rfl
  | cons c t ih =>
    have hc : c ≠ '/' := h c (List.mem_cons_self c t)
    have ht : splitSlashes t = [t] := ih (fun x hx => h x (List.mem_cons_of_mem c hx))
    rw [splitSlashes, ht]
    simp [hc]

theorem ofString_noSlash (s : String) (h : ∀ c ∈ s.data, c ≠ '/') :
    PurePath.ofString s = ⟨"", if s = "" ∨ s = "." then [] else [s]⟩ := by
  have htw : s.data.takeWhile (fun c => decide (c = '/')) = [] := by
    cases hd : s.data with
    | nil => rfl
    | cons c t =>
      have : c ≠ '/' := h c (by rw [hd]; exact List.mem_cons_self c t)
      simp [List.takeWhile_cons, this]
  have hsp : splitSlashes s.data = [s.data] := splitSlashes_noSlash h
  have heta : String.mk s.data = s := rfl
  unfold PurePath.ofString
  rw [htw, hsp]
  simp only [List.length_nil, List.map_cons, List.map_nil, heta, List.filter]
  by_cases he : s = "" ∨ s = "."
  · have : ¬ (s ≠ "" ∧ s ≠ ".") := by tauto
    simp [he, this]
  · push_neg at he
    simp [he.1, he.2]

theorem clean_path_forms (p : PurePath) :
    clean_path p = ⟨"", []⟩ ∨
    ∃ m : String, clean_path p = ⟨"", [m]⟩ ∧ m ≠ "" ∧ m ≠ "." ∧
      (∀ c ∈ m.data, ¬ c ∈ INVALID_WIN_CHARS) := by
  unfold clean_path
  have hs := reSub_mem (PurePath.str p)
  have hsl : ∀ c ∈ (reSubInvalid (PurePath.str p)).data, c ≠ '/' := by
    intro c hc he
    exact hs c hc (by rw [he]; decide)
  rw [ofString_noSlash _ hsl]
  by_cases h : reSubInvalid (PurePath.str p) = "" ∨ reSubInvalid (PurePath.str p) = "."
  · left
    simp [h]
  · right
    push_neg at h
    refine ⟨reSubInvalid (PurePath.str p), ?_, h.1, h.2, hs⟩
    simp [h.1, h.2]

theorem clean_path_empty : clean_path ⟨"", []⟩ = ⟨"", []⟩ := by decide

theorem clean_path_single {m : String} (h1 : m ≠ "") (h2 : m ≠ ".")
    (h3 : ∀ c ∈ m.data, ¬ c ∈ INVALID_WIN_CHARS) :
    clean_path ⟨"", [m]⟩ = ⟨"", [m]⟩ := by
  have hstr : PurePath.str ⟨"", [m]⟩ = m := by
    unfold PurePath.str
    simp only [joinSegs_single]
    rw [if_neg (by simp), empty_append_str]
  unfold clean_path
  rw [hstr, reSub_noChange h3, ofString_noSlash]
  · simp [h1, h2]
  · intro c hc he
    exact h3 c hc (by rw [he]; decide)

/-!  Claims about the path sanitizer and the remote-to-local mapping. -/

/-- C1: the claim says sanitization works on each path segment
independently and never merges two segments across a separator.  The code
applies `re.sub` with a character class containing `'/'` to the whole
path string, so the remote path `a/b` (two segments) is mapped to the
single-segment local path `ab`: the separator is deleted and the two
segments merge.  This theorem evaluates the code at that failing input. -/
theorem c1_sanitizer_merges_segments :
    clean_path ⟨"", ["a", "b"]⟩ = ⟨"", ["ab"]⟩ ∧
    computeLocalResPaths [⟨"", ["a", "b"]⟩] =
      [(⟨"", ["a", "b"]⟩, ⟨"", ["ab"]⟩)] ∧
    (⟨"", ["a", "b"]⟩ : PurePath).segments.length = 2 ∧
    (clean_path ⟨"", ["a", "b"]⟩).segments.length = 1 := by decide

/-- C9: `sanitize` (i.e. `clean_path`) is idempotent:
`clean_path (clean_path p) = clean_path p` for every path. -/
theorem c9_clean_path_idempotent :
    ∀ p : PurePath, clean_path (clean_path p) = clean_path p := by
  intro p
  rcases clean_path_forms p with h | ⟨m, h, h1, h2, h3⟩
  · rw [h]
    exact clean_path_empty
  · rw [h]
    exact clean_path_single h1 h2 h3

/-- C2 counterexample: the claim says every 2xx status is a success, but
the engine's `send_request` raises `ResponseNotOkError` for any `GET`
status other than 200, and 204 is not in `RETRY_CODES`, so a 204 response
is classified as a permanent failure. -/
theorem c2_status204_not_success :
    classify_result (download_resource_result (.response 204)) = .failed ∧
    200 ≤ 204 ∧ 204 < 300 := by decide

/-- C2 amended: a transport timeout is retryable; any other transport
error is a permanent failure; a response with status 429, 502, 503 or 504
is retryable; a response with status 200 is a success; a response with
any other status — included non-200 2xx statuses — is a permanent
failure. -/
theorem c2_classification_table :
    ∀ t : TransportResult,
      classify_result (download_resource_result t) =
        match t with
        | .timeout => .retry
        | .transportError => .failed
        | .response s =>
          if s = 200 then .success
          else if s ∈ RETRY_CODES then .retry else .failed := by
  intro t
  cases t with
  | timeout => rfl
  | transportError => rfl
  | response s =>
    by_cases h503 : s = 503
    · subst h503
      rfl
    · by_cases h200 : s = 200
      · subst h200
        rfl
      · simp only [download_resource_result, send_request, classify_result,
          if_neg h503, if_neg h200]
        have : ("GET" : String) = "PROPFIND" ↔ False := by simp
        simp [h503, h200, this]

/-- C4 counterexample: the distinct remote paths `a/b` and `ab` sanitize
to the same local path `ab`; `_compute_local_res_paths` records both
mappings without any conflict signal, and `download_resource` opens the
same local file for both, so the later download silently overwrites the
earlier one. -/
theorem c4_collision_silent_overwrite :
    (⟨"", ["a", "b"]⟩ : PurePath) ≠ ⟨"", ["ab"]⟩ ∧
    computeLocalResPaths [⟨"", ["a", "b"]⟩, ⟨"", ["ab"]⟩] =
      [(⟨"", ["a", "b"]⟩, ⟨"", ["ab"]⟩), (⟨"", ["ab"]⟩, ⟨"", ["ab"]⟩)] ∧
    downloadTargetPath ⟨"/", ["backup"]⟩
      (computeLocalResPaths [⟨"", ["a", "b"]⟩, ⟨"", ["ab"]⟩]) ⟨"", ["a", "b"]⟩ =
        some ⟨"/", ["backup", "ab"]⟩ ∧
    downloadTargetPath ⟨"/", ["backup"]⟩
      (computeLocalResPaths [⟨"", ["a", "b"]⟩, ⟨"", ["ab"]⟩]) ⟨"", ["ab"]⟩ =
        some ⟨"/", ["backup", "ab"]⟩ := by decide

/-- C4 amended: when two distinct remote paths sanitize to the same local
path, no conflict is detected or reported: `_compute_local_res_paths`
silently maps both to that local path and both downloads target the same
local file. -/
theorem c4_no_conflict_detection :
    ∀ p1 p2 localRoot : PurePath, p1 ≠ p2 →
      PurePath.ofString (reSubInvalid p1.str) = PurePath.ofString (reSubInvalid p2.str) →
      computeLocalResPaths [p1, p2] =
        [(p1, PurePath.ofString (reSubInvalid p1.str)),
         (p2, PurePath.ofString (reSubInvalid p1.str))] ∧
      downloadTargetPath localRoot (computeLocalResPaths [p1, p2]) p1 =
        some (localRoot.join (PurePath.ofString (reSubInvalid p1.str))) ∧
      downloadTargetPath localRoot (computeLocalResPaths [p1, p2]) p1 =
        downloadTargetPath localRoot (computeLocalResPaths [p1, p2]) p2 := by
  intro p1 p2 localRoot hne heq
  have hne' : p2 ≠ p1 := Ne.symm hne
  refine ⟨by simp [computeLocalResPaths, heq], ?_, ?_⟩
  · simp [downloadTargetPath, dictLookup, computeLocalResPaths, List.find?, hne']
  · simp [downloadTargetPath, dictLookup, computeLocalResPaths, List.find?, hne', heq]

/-- Witness for `c4_no_conflict_detection` at the colliding pair from the
counterexample. -/
theorem c4_no_conflict_detection_witness :
    computeLocalResPaths [⟨"", ["a", "b"]⟩, ⟨"", ["ab"]⟩] =
      [(⟨"", ["a", "b"]⟩, PurePath.ofString (reSubInvalid (⟨"", ["a", "b"]⟩ : PurePath).str)),
       (⟨"", ["ab"]⟩, PurePath.ofString (reSubInvalid (⟨"", ["a", "b"]⟩ : PurePath).str))] ∧
    downloadTargetPath ⟨"/", ["backup"]⟩
      (computeLocalResPaths [⟨"", ["a", "b"]⟩, ⟨"", ["ab"]⟩]) ⟨"", ["a", "b"]⟩ =
        some ((⟨"/", ["backup"]⟩ : PurePath).join
          (PurePath.ofString (reSubInvalid (⟨"", ["a", "b"]⟩ : PurePath).str))) ∧
    downloadTargetPath ⟨"/", ["backup"]⟩
      (computeLocalResPaths [⟨"", ["a", "b"]⟩, ⟨"", ["ab"]⟩]) ⟨"", ["a", "b"]⟩ =
      downloadTargetPath ⟨"/", ["backup"]⟩
        (computeLocalResPaths [⟨"", ["a", "b"]⟩, ⟨"", ["ab"]⟩]) ⟨"", ["ab"]⟩ :=
  c4_no_conflict_detection ⟨"", ["a", "b"]⟩ ⟨"", ["ab"]⟩ ⟨"/", ["backup"]⟩
    (by decide) (by decide)

/-- C5 counterexample: the URL `http://host/a//b` has a doubled separator
inside its path component, yet `ConnInfo.__init__` accepts it, because
`has_double_slash` uses `re.match`, which anchors at the start of the
string. -/
theorem c5_inner_double_slash_accepted :
    containsDoubleSlash (urlparsePath "http://host/a//b").data = true ∧
    connInfoInit "http://host/a//b" = .ok ⟨"", ["a", "b"]⟩ :=
  ⟨rfl, rfl⟩

/-- C5 amended: `ConnInfo` construction fails with the invalid-address
error exactly when the URL's path component begins with a doubled
separator; a doubled separator later in the path is accepted. -/
theorem c5_double_slash_only_at_start :
    ∀ url : String,
      (connInfoInit url = .error .valueError ↔
        ∃ rest, (urlparsePath url).data = '/' :: '/' :: rest) := by
  intro url
  have hiff : has_double_slash (urlparsePath url) = true ↔
      ∃ rest, (urlparsePath url).data = '/' :: '/' :: rest := by
    cases hd : (urlparsePath url).data with
    | nil => simp [has_double_slash, hd]
    | cons c1 t1 =>
      cases t1 with
      | nil => simp [has_double_slash, hd]
      | cons c2 t2 =>
        by_cases h1 : c1 = '/'
        · by_cases h2 : c2 = '/'
          · subst h1; subst h2
            simp [has_double_slash, hd]
          · simp [has_double_slash, hd, h1, h2]
        · simp [has_double_slash, hd, h1]
  rw [← hiff]
  unfold connInfoInit
  cases h : has_double_slash (urlparsePath url) with
  | true => simp [h]
  | false => simp [h]

/-!  Helper lemmas about the download engine's wave loop. -/

theorem check_futures_ok (o : PurePath → Except FutureExc Unit) (l : List PurePath)
    (h : ∀ x ∈ l, ∀ e, futureOutcome (o x) ≠ .error e) :
    check_futures o l =
      .ok (l.filter (fun x => decide (futureOutcome (o x) = .ok .retry)),
           l.filter (fun x => decide (futureOutcome (o x) = .ok .failed))) := by
  induction l with
  | nil => rfl
  | cons r rest ih =>
    have hrest := ih (fun x hx => h x (List.mem_cons_of_mem r hx))
    cases hoc : futureOutcome (o r) with
    | error e => exact absurd hoc (h r (List.mem_cons_self r rest) e)
    | ok oc =>
      rw [check_futures, hoc, hrest]
      cases oc <;> simp [List.filter_cons, hoc]

theorem loopGuard_some_iff (n t : Nat) (l : List PurePath) :
    loopGuard (some n) t l = true ↔ (l ≠ [] ∧ t < n) := by
  cases l with
  | nil => simp [loopGuard]
  | cons a l' => simp [loopGuard]

theorem loopGuard_none_iff (t : Nat) (l : List PurePath) :
    loopGuard none t l = true ↔ l ≠ [] := by
  cases l with
  | nil => simp [loopGuard]
  | cons a l' => simp [loopGuard]

theorem downloadLoop_bounded (foracle : FOracle) (n : Nat) :
    ∀ (fuel tryNum : Nat) (tryRes failed : List PurePath)
      (subs : List (PurePath × Nat)),
      n ≤ tryNum + fuel → (∀ x ∈ subs, x.2 ≤ n) →
      (downloadLoop foracle (some n) fuel tryNum tryRes failed subs).2.isSome ∧
      ∀ x ∈ (downloadLoop foracle (some n) fuel tryNum tryRes failed subs).1, x.2 ≤ n := by
  intro fuel
  induction fuel with
  | zero =>
    intro tryNum tryRes failed subs hle hsubs
    have hg : ¬ loopGuard (some n) tryNum tryRes = true := by
      rw [loopGuard_some_iff]
      rintro ⟨-, hlt⟩
      omega
    rw [downloadLoop, if_neg hg]
    exact ⟨rfl, hsubs⟩
  | succ fuel ih =>
    intro tryNum tryRes failed subs hle hsubs
    by_cases hg : loopGuard (some n) tryNum tryRes = true
    · have hlt : tryNum < n := ((loopGuard_some_iff n tryNum tryRes).mp hg).2
      have hsubs2 : ∀ x ∈ subs ++ tryRes.map (fun r => (r, tryNum + 1)), x.2 ≤ n := by
        intro x hx
        rcases List.mem_append.mp hx with hx | hx
        · exact hsubs x hx
        · obtain ⟨y, -, rfl⟩ := List.mem_map.mp hx
          omega
      rw [downloadLoop, if_pos hg]
      cases hcf : check_futures (fun r => foracle r (tryNum + 1)) tryRes with
      | error e => exact ⟨rfl, hsubs2⟩
      | ok pair => exact ih (tryNum + 1) pair.1 (failed ++ pair.2) _ (by omega) hsubs2
    · rw [downloadLoop, if_neg hg]
      exact ⟨rfl, hsubs⟩

theorem wave1Count_append (p : PurePath) (s1 s2 : List (PurePath × Nat)) :
    wave1Count p (s1 ++ s2) = wave1Count p s1 + wave1Count p s2 := by
  simp [wave1Count, List.countP_append]

theorem wave1Count_map_one (p : PurePath) (l : List PurePath) :
    wave1Count p (l.map (fun x => (x, 1))) = countOcc p l := by
  simp only [wave1Count, countOcc, List.countP_map]
  apply List.countP_congr
  intro a _
  by_cases h : a = p
  · subst h
    simp
  · simp [Function.comp, h, Prod.ext_iff]

theorem wave1Count_later_zero (p : PurePath) (l : List PurePath) (k : Nat)
    (hk : 2 ≤ k) : wave1Count p (l.map (fun x => (x, k))) = 0 := by
  simp only [wave1Count, List.countP_map]
  rw [List.countP_eq_zero]
  intro a _
  simp only [Function.comp]
  intro hcontra
  have := (Prod.ext_iff.mp (of_decide_eq_true hcontra)).2
  omega

theorem downloadLoop_wave1_stable (foracle : FOracle) (mt : Option Nat) (p : PurePath) :
    ∀ (fuel tryNum : Nat) (tryRes failed : List PurePath)
      (subs : List (PurePath × Nat)), 1 ≤ tryNum →
      wave1Count p (downloadLoop foracle mt fuel tryNum tryRes failed subs).1 =
        wave1Count p subs := by
  intro fuel
  induction fuel with
  | zero =>
    intro tryNum tryRes failed subs htn
    by_cases hg : loopGuard mt tryNum tryRes = true
    · rw [downloadLoop, if_pos hg]
    · rw [downloadLoop, if_neg hg]
  | succ fuel ih =>
    intro tryNum tryRes failed subs htn
    by_cases hg : loopGuard mt tryNum tryRes = true
    · rw [downloadLoop, if_pos hg]
      cases hcf : check_futures (fun r => foracle r (tryNum + 1)) tryRes with
      | error e =>
        show wave1Count p (subs ++ tryRes.map (fun r => (r, tryNum + 1))) =
          wave1Count p subs
        rw [wave1Count_append, wave1Count_later_zero p tryRes (tryNum + 1) (by omega)]
        omega
      | ok pair =>
        rw [ih (tryNum + 1) pair.1 (failed ++ pair.2) _ (by omega)]
        rw [wave1Count_append, wave1Count_later_zero p tryRes (tryNum + 1) (by omega)]
        omega
    · rw [downloadLoop, if_neg hg]

theorem downloadLoop_none_retry (foracle : FOracle) (r : PurePath)
    (hok : ∀ x k e, futureOutcome (foracle x k) ≠ .error e)
    (hre : ∀ k, futureOutcome (foracle r k) = .ok .retry) :
    ∀ (fuel tryNum : Nat) (tryRes failed : List PurePath)
      (subs : List (PurePath × Nat)), r ∈ tryRes →
      (downloadLoop foracle none fuel tryNum tryRes failed subs).2 = none := by
  intro fuel
  induction fuel with
  | zero =>
    intro tryNum tryRes failed subs hr
    have hg : loopGuard none tryNum tryRes = true :=
      (loopGuard_none_iff tryNum tryRes).mpr (List.ne_nil_of_mem hr)
    rw [downloadLoop, if_pos hg]
  | succ fuel ih =>
    intro tryNum tryRes failed subs hr
    have hg : loopGuard none tryNum tryRes = true :=
      (loopGuard_none_iff tryNum tryRes).mpr (List.ne_nil_of_mem hr)
    rw [downloadLoop, if_pos hg,
      check_futures_ok (fun x => foracle x (tryNum + 1)) tryRes
        (fun x _ e => hok x (tryNum + 1) e)]
    apply ih
    refine List.mem_filter.mpr ⟨hr, ?_⟩
    exact decide_eq_true (hre (tryNum + 1))

/-!  Claims about the download engine. -/

/-- C3: the claim says resource-level failures never escape
`download_resources`.  In the source, `download_resource` raises
`AttributeError` on every call (it invokes the nonexistent
`ConnInfo.remote_res_path_to_url`), `check_futures` catches only the
`requests` exceptions, and so the `AttributeError` escapes
`download_resources` on the first completed future of wave 1 of every
nonempty run.  This theorem evaluates the faithful model at a
single-resource run: after one submission the call aborts with the
uncaught `AttributeError` instead of returning a failure report. -/
theorem c3_attribute_error_escapes :
    download_resource_run (computeLocalResPaths [⟨"", ["a.txt"]⟩]) ⟨"", ["a.txt"]⟩ =
      .error (.otherExc .attributeError) ∧
    download_resources
      (fun r _ => download_resource_run (computeLocalResPaths [⟨"", ["a.txt"]⟩]) r)
      WebDavService_MAX_TRIES 5 [⟨"", ["a.txt"]⟩] =
      ([(⟨"", ["a.txt"]⟩, 1)], some (.error .attributeError)) :=
  ⟨rfl, rfl⟩

/-- C6: the claim says an always-timing-out resource is attempted exactly
`MAX_TRIES` times and then recorded in the failed report.  No request is
ever issued: whenever a submitted resource has a mapping entry, its
future ends in the uncaught `AttributeError` raised before the
`send_request` call, whatever the transport would have done (first
conjunct), so the run aborts during wave 1 — the resource is submitted
exactly once, never five times, and nothing is recorded in
`failed_resources` (remaining conjuncts evaluate the run). -/
theorem c6_no_attempt_reaches_transport :
    (∀ (m : List (PurePath × PurePath)) (r : PurePath) (l : PurePath),
      dictLookup m r = some l →
      download_resource_run m r = .error (.otherExc .attributeError)) ∧
    download_resources
      (fun r _ => download_resource_run (computeLocalResPaths [⟨"", ["x"]⟩]) r)
      WebDavService_MAX_TRIES 5 [⟨"", ["x"]⟩] =
      ([(⟨"", ["x"]⟩, 1)], some (.error .attributeError)) ∧
    subsCount ⟨"", ["x"]⟩ [(⟨"", ["x"]⟩, 1)] = 1 := by
  refine ⟨?_, rfl, by decide⟩
  intro m r l hml
  unfold download_resource_run
  rw [hml]

/-- Witness for `c6_no_attempt_reaches_transport` at a concrete resource
with its computed mapping entry. -/
theorem c6_no_attempt_reaches_transport_witness :
    download_resource_run (computeLocalResPaths [⟨"", ["x"]⟩]) ⟨"", ["x"]⟩ =
      .error (.otherExc .attributeError) :=
  c6_no_attempt_reaches_transport.1 (computeLocalResPaths [⟨"", ["x"]⟩]) ⟨"", ["x"]⟩
    (PurePath.ofString (reSubInvalid (PurePath.str ⟨"", ["x"]⟩))) rfl

/-- C10: with a numeric retry ceiling `n` the wave loop settles within
`n` waves for every behaviour of the futures — it returns the failure
report or propagates an uncaught exception, and no submission belongs to
a wave beyond `n`; with the base-class default `MAX_TRIES = None` the
loop never reaches an exit, for any amount of fuel, as long as some
resource's futures keep completing with a caught retryable classification
(and no future raises an uncaught exception). -/
theorem c10_ceiling_bounds_waves :
    (∀ (foracle : FOracle) (n : Nat) (rs : List PurePath),
      (download_resources foracle (some n) n rs).2.isSome ∧
      ∀ x ∈ (download_resources foracle (some n) n rs).1, x.2 ≤ n) ∧
    (∀ (foracle : FOracle) (rs : List PurePath) (r : PurePath), r ∈ rs →
      (∀ x k e, futureOutcome (foracle x k) ≠ .error e) →
      (∀ k, futureOutcome (foracle r k) = .ok .retry) →
      ∀ fuel, (download_resources foracle BackupService_MAX_TRIES fuel rs).2 = none) := by
  constructor
  · intro foracle n rs
    exact downloadLoop_bounded foracle n n 0 rs [] [] (by omega) (by simp)
  · intro foracle rs r hr hok hre fuel
    exact downloadLoop_none_retry foracle r hok hre fuel 0 rs [] [] hr

/-- Witness for `c10_ceiling_bounds_waves`: with `MAX_TRIES = None`,
futures that always complete with a caught `Timeout` keep the loop
running forever. -/
theorem c10_ceiling_bounds_waves_witness :
    (download_resources (fun _ _ => .error (.reqExc .timeoutExc))
      BackupService_MAX_TRIES 9 [⟨"", ["x"]⟩]).2 = none :=
  c10_ceiling_bounds_waves.2 (fun _ _ => .error (.reqExc .timeoutExc)) [⟨"", ["x"]⟩]
    ⟨"", ["x"]⟩ (by decide)
    (by
      intro x k e h
      simp [futureOutcome, classify_result] at h)
    (fun _ => rfl) 9

/-!  Claims about the resource lister. -/

/-- C7 counterexample: a listing naming `/a.txt` twice parses to two
resource records for the same path (no collapse), and wave 1 of the run
submits that path twice — after which the run aborts on the uncaught
`AttributeError` of the fetch bug. -/
theorem c7_duplicate_listing_kept :
    parse_resource_list dupListing ⟨"", []⟩ =
      .ok [⟨"", ["a.txt"]⟩, ⟨"", ["a.txt"]⟩] ∧
    download_resources
      (fun r _ => download_resource_run
        (computeLocalResPaths [⟨"", ["a.txt"]⟩, ⟨"", ["a.txt"]⟩]) r)
      WebDavService_MAX_TRIES 5 [⟨"", ["a.txt"]⟩, ⟨"", ["a.txt"]⟩] =
      ([(⟨"", ["a.txt"]⟩, 1), (⟨"", ["a.txt"]⟩, 1)], some (.error .attributeError)) ∧
    wave1Count ⟨"", ["a.txt"]⟩ [(⟨"", ["a.txt"]⟩, 1), (⟨"", ["a.txt"]⟩, 1)] = 2 :=
  ⟨rfl, rfl, by decide⟩

/-- C7 amended: duplicate listing entries are not collapsed: parsing
yields one record per occurrence, and wave 1 submits each path once per
occurrence (its number of wave-1 submissions equals its multiplicity in
the input list), whatever the futures then do — in the real program the
run aborts on the first wave-1 result. -/
theorem c7_one_submission_per_occurrence :
    parse_resource_list dupListing ⟨"", []⟩ =
      .ok [⟨"", ["a.txt"]⟩, ⟨"", ["a.txt"]⟩] ∧
    ∀ (foracle : FOracle) (n : Nat) (rs : List PurePath) (p : PurePath), 1 ≤ n →
      wave1Count p (download_resources foracle (some n) n rs).1 = countOcc p rs := by
  refine ⟨rfl, ?_⟩
  intro foracle n rs p hn
  cases rs with
  | nil =>
    have hempty : (download_resources foracle (some n) n []).1 = [] := by
      cases n with
      | zero => rfl
      | succ m =>
        rw [download_resources, downloadLoop]
        rfl
    rw [hempty]
    rfl
  | cons a t =>
    obtain ⟨m, rfl⟩ : ∃ m, n = m + 1 := ⟨n - 1, by omega⟩
    have hg : loopGuard (some (m + 1)) 0 (a :: t) = true :=
      (loopGuard_some_iff (m + 1) 0 (a :: t)).mpr ⟨by simp, by omega⟩
    rw [download_resources, downloadLoop, if_pos hg]
    cases hcf : check_futures (fun r => foracle r 1) (a :: t) with
    | error e =>
      show wave1Count p ([] ++ (a :: t).map (fun r => (r, 1))) = countOcc p (a :: t)
      rw [List.nil_append, wave1Count_map_one]
    | ok pair =>
      rw [downloadLoop_wave1_stable foracle (some (m + 1)) p m 1 pair.1
        ([] ++ pair.2) ([] ++ (a :: t).map (fun r => (r, 1))) (by omega)]
      rw [List.nil_append, wave1Count_map_one]

/-- Witness for `c7_one_submission_per_occurrence` on the duplicated
listing entry under the real program's futures: two wave-1 submissions
for a multiplicity-2 input. -/
theorem c7_one_submission_per_occurrence_witness :
    wave1Count ⟨"", ["a.txt"]⟩
      (download_resources
        (fun r _ => download_resource_run
          (computeLocalResPaths [⟨"", ["a.txt"]⟩, ⟨"", ["a.txt"]⟩]) r)
        (some 5) 5 [⟨"", ["a.txt"]⟩, ⟨"", ["a.txt"]⟩]).1 =
      countOcc ⟨"", ["a.txt"]⟩ [⟨"", ["a.txt"]⟩, ⟨"", ["a.txt"]⟩] :=
  c7_one_submission_per_occurrence.2
    (fun r _ => download_resource_run
      (computeLocalResPaths [⟨"", ["a.txt"]⟩, ⟨"", ["a.txt"]⟩]) r)
    5 [⟨"", ["a.txt"]⟩, ⟨"", ["a.txt"]⟩] ⟨"", ["a.txt"]⟩ (by omega)

/-!  Helper lemmas about the resource lister. -/

theorem relativeTo_ok_root {p q r : PurePath} (h : p.relativeTo q = .ok r) :
    r.root = "" := by
  unfold PurePath.relativeTo at h
  by_cases hc : p.root = q.root ∧ q.segments <+: p.segments
  · rw [if_pos hc] at h
    have := Except.ok.inj h
    rw [← this]
  · rw [if_neg hc] at h
    exact absurd h (by simp)

theorem isRelTo_slash_iff (q : PurePath) :
    q.isRelTo (PurePath.ofString "/") = true ↔ q.root = "/" := by
  unfold PurePath.isRelTo PurePath.relativeTo
  by_cases hr : q.root = "/"
  · rw [if_pos ⟨hr, List.nil_prefix⟩]
    simp [hr]
  · rw [if_neg (fun hc => hr hc.1)]
    simp [hr]

theorem parseRespLoop_ok (q : PurePath) :
    ∀ l : List XmlNode,
      (∀ resp ∈ l, isDirElem resp = false →
        ∃ h, hrefElem resp = some h ∧ ∃ pr, processHref h.text q = .ok pr) →
      ∃ out, parseRespLoop q l = .ok out ∧ ∀ p ∈ out, p.root = "" := by
  intro l
  induction l with
  | nil => exact fun _ => ⟨[], rfl, by simp⟩
  | cons resp rest ih =>
    intro hall
    obtain ⟨out, hout, hroot⟩ := ih (fun x hx => hall x (List.mem_cons_of_mem resp hx))
    cases hdir : isDirElem resp with
    | true =>
      refine ⟨out, ?_, hroot⟩
      rw [parseRespLoop, processResponse, if_pos hdir, hout]
    | false =>
      obtain ⟨h, hh, pr, hpr⟩ := hall resp (List.mem_cons_self resp rest) hdir
      have hpresp : processResponse q resp = .ok (some pr) := by
        rw [processResponse, if_neg (by simp [hdir]), hh]
        show (processHref h.text q).map some = Except.ok (some pr)
        rw [hpr]
        rfl
      refine ⟨pr :: out, ?_, ?_⟩
      · rw [parseRespLoop, hpresp, hout]
      · intro p hp
        rcases List.mem_cons.mp hp with rfl | hp
        · unfold processHref at hpr
          exact relativeTo_ok_root hpr
        · exact hroot p hp

/-- C8 counterexample: for a well-formed multi-status document whose
single file response has no `{DAV:}href` child, `parse_resource_list`
raises (the `AttributeError` from `None.text`) instead of returning a
result; only `XMLSyntaxError` is caught, so the claim that parsing never
raises on any input fails. -/
theorem c8_missing_href_raises :
    parse_resource_list noHrefListing ⟨"", []⟩ = .error .attributeError := rfl

/-- C8 amended: unparsable content yields the empty list (only
`XMLSyntaxError` is caught), and a well-formed multi-status document is
parsed without raising — yielding its non-directory entries as
root-stripped relative paths, whatever other properties the items carry
and in whatever order — provided every non-directory response has an
href element whose (possibly empty) decoded path lies under the root
prefix.  A response with no href element makes the call raise
`AttributeError`; an empty href element yields the path `.` — accepted
under an empty root prefix, `ValueError` under a nonempty one — and an
href outside the root prefix raises `ValueError` (last two conjuncts). -/
theorem c8_parse_tolerance :
    (∀ q : PurePath, q.root ≠ "/" → parse_resource_list .malformed q = .ok []) ∧
    (∀ (root : XmlNode) (q : PurePath), q.root ≠ "/" →
      (∀ resp ∈ root.findallDesc "{DAV:}response", isDirElem resp = false →
        ∃ h, hrefElem resp = some h ∧ ∃ pr, processHref h.text q = .ok pr) →
      ∃ out, parse_resource_list (.tree root) q = .ok out ∧
        ∀ p ∈ out, p.root = "") ∧
    parse_resource_list emptyHrefListing ⟨"", []⟩ = .ok [⟨"", []⟩] ∧
    parse_resource_list emptyHrefListing ⟨"", ["root"]⟩ = .error .valueError := by
  refine ⟨?_, ?_, rfl, rfl⟩
  · intro q hq
    have hnot : ¬ q.isRelTo (PurePath.ofString "/") = true := by
      rw [isRelTo_slash_iff]
      exact hq
    rw [parse_resource_list, if_neg hnot]
  · intro root q hq hall
    have hnot : ¬ q.isRelTo (PurePath.ofString "/") = true := by
      rw [isRelTo_slash_iff]
      exact hq
    obtain ⟨out, hout, hroot⟩ := parseRespLoop_ok q (root.findallDesc "{DAV:}response") hall
    refine ⟨out, ?_, hroot⟩
    rw [parse_resource_list, if_neg hnot, hout]

/-- Witness for `c8_parse_tolerance` on a concrete well-formed listing
with one file entry under the root prefix. -/
theorem c8_parse_tolerance_witness :
    ∃ out,
      parse_resource_list
        (.tree (.elem "{DAV:}multistatus" none
          [.elem "{DAV:}response" none [.elem "{DAV:}href" (some "/a.txt") []]]))
        ⟨"", []⟩ = .ok out ∧ ∀ p ∈ out, p.root = "" :=
  c8_parse_tolerance.2.1
    (.elem "{DAV:}multistatus" none
      [.elem "{DAV:}response" none [.elem "{DAV:}href" (some "/a.txt") []]])
    ⟨"", []⟩ (by decide)
    (by
      intro resp hresp hdir
      have hlist :
          (XmlNode.elem "{DAV:}multistatus" none
            [.elem "{DAV:}response" none
              [.elem "{DAV:}href" (some "/a.txt") []]]).findallDesc "{DAV:}response" =
          [.elem "{DAV:}response" none [.elem "{DAV:}href" (some "/a.txt") []]] := rfl
      rw [hlist, List.mem_singleton] at hresp
      subst hresp
      exact ⟨.elem "{DAV:}href" (some "/a.txt") [], rfl, ⟨"", ["a.txt"]⟩, rfl⟩)
